import Mathlib

/-!
Verification of the headmouse per-frame signal pipeline
(`src/python/headmouse/headmouse.py`).

Python floats are embedded as `ℚ`, integers as `ℤ`.  The `filters` and
`camera` modules are not part of the sources; the components they provide
(relative movement, outlier filter, EMA smoother, acceleration curve,
sub-pixel accumulator, acquisition state machine) are modelled from the
specification, as marked on each definition.  Everything appearing in
`headmouse.py` itself (the constants, the orchestrator loop body, the
pymouse output sink, `get_config`, the log-level selection) is translated
from that source.
-/

namespace Headmouse

/-- `ACCELERATION_EXPONENT = 2` (headmouse.py line 40). -/
def ACCELERATION_EXPONENT : ℕ := 2

/-- `OUTLIER_VELOCITY_THRESHOLD = 20` (headmouse.py line 41). -/
def OUTLIER_VELOCITY_THRESHOLD : ℚ := 20

/-! ### Sub-pixel accumulator -/

/-- Truncation toward zero on `ℚ`, the behaviour of Python `int(f)` on a
float: floor for non-negative arguments, ceiling for negative ones. -/
def truncQ (q : ℚ) : ℤ := if 0 ≤ q then ⌊q⌋ else ⌈q⌉

/-- Modelled from the spec: `filters.sub_pix_trunc` is not under `src/`;
§4.5 gives the per-axis step `total = dx + rx`, `out =
truncate_toward_zero(total)`, `rx' = total - out`.  Returns the integer
output together with the new persisted remainder. -/
def subPixStep (r x : ℚ) : ℤ × ℚ :=
  let total := x + r
  let out := truncQ total
  (out, total - out)

/-- Run the sub-pixel accumulator over a list of inputs from remainder `r`,
returning the integer outputs and the final remainder. -/
def runSubPix (r : ℚ) : List ℚ → List ℤ × ℚ
  | [] => ([], r)
  | x :: xs =>
      let s := subPixStep r x
      let rest := runSubPix s.2 xs
      (s.1 :: rest.1, rest.2)

/-- Modelled from the spec: the two-axis step of `filters.sub_pix_trunc`
(not under `src/`), applying `subPixStep` independently per axis. -/
def sub_pix_trunc (st : ℚ × ℚ) (v : ℚ × ℚ) : (ℤ × ℤ) × (ℚ × ℚ) :=
  let sx := subPixStep st.1 v.1
  let sy := subPixStep st.2 v.2
  ((sx.1, sy.1), (sx.2, sy.2))

/-! ### EMA smoother -/

/-- Modelled from the spec: `filters.ema_smoother` is not under `src/`;
§4.3 gives: first call returns the input and initializes the persisted
average to it; subsequent calls return `α·avg + (1−α)·input` and persist
it.  State is `none` before the first call. -/
def emaStep (a : ℚ) (st : Option (ℚ × ℚ)) (v : ℚ × ℚ) :
    (ℚ × ℚ) × Option (ℚ × ℚ) :=
  match st with
  | none => (v, some v)
  | some avg =>
      let avg' := (a * avg.1 + (1 - a) * v.1, a * avg.2 + (1 - a) * v.2)
      (avg', some avg')

/-- Run the EMA smoother over a list of inputs, returning the outputs and
the final state. -/
def emaRun (a : ℚ) (st : Option (ℚ × ℚ)) : List (ℚ × ℚ) →
    List (ℚ × ℚ) × Option (ℚ × ℚ)
  | [] => ([], st)
  | v :: vs =>
      let s := emaStep a st v
      let rest := emaRun a s.2 vs
      (s.1 :: rest.1, rest.2)

/-! ### Outlier filter -/

/-- Modelled from the spec: `filters.killOutliers` is not under `src/`;
§4.1 gives: return `(0, 0)` if `|dx| > T` or `|dy| > T` (strict per-axis
check), else the input unchanged.  Stateless. -/
def killOutliers (v : ℚ × ℚ) (t : ℚ) : ℚ × ℚ :=
  if t < |v.1| ∨ t < |v.2| then (0, 0) else v

/-! ### Acceleration curve -/

/-- Sign function on `ℚ` (`1`, `-1`, or `0`). -/
def sgnQ (v : ℚ) : ℚ := if 0 < v then 1 else if v < 0 then -1 else 0

/-- Modelled from the spec: `filters.accelerate_exp` is not under `src/`;
§4.4 gives the per-axis map `sign(v) · (sensitivity + accel·|v|^p) · |v|`. -/
def accAxis (p : ℕ) (accel sensitivity v : ℚ) : ℚ :=
  sgnQ v * (sensitivity + accel * |v| ^ p) * |v|

/-- Modelled from the spec: the two-axis acceleration curve, applying
`accAxis` independently per axis. -/
def accelerate_exp (p : ℕ) (accel sensitivity : ℚ) (v : ℚ × ℚ) : ℚ × ℚ :=
  (accAxis p accel sensitivity v.1, accAxis p accel sensitivity v.2)

/-! ### Relative movement -/

/-- Modelled from the spec: `filters.relative_movement` is not under
`src/`; §3/§4.7 give: hold the last absolute position, initialized on the
first sample, and output position minus previous persisted position.  The
spec leaves the first call's output unspecified; it is modelled as `(0,0)`
(the delta of the seeding position against itself). -/
def relative_movement (st : Option (ℚ × ℚ)) (pos : ℚ × ℚ) :
    (ℚ × ℚ) × Option (ℚ × ℚ) :=
  match st with
  | none => ((0, 0), some pos)
  | some prev => ((pos.1 - prev.1, pos.2 - prev.2), some pos)

/-- Run the two-axis sub-pixel accumulator over a list of velocity pairs. -/
def runSubPix2 (st : ℚ × ℚ) : List (ℚ × ℚ) → List (ℤ × ℤ) × (ℚ × ℚ)
  | [] => ([], st)
  | v :: vs =>
      let s := sub_pix_trunc st v
      let rest := runSubPix2 s.2 vs
      (s.1 :: rest.1, rest.2)

/-! ### Frame pipeline orchestrator (headmouse.py, `main`, lines 228-249) -/

/-- The configuration options the per-frame pipeline reads
(headmouse.py lines 200-208, 233). -/
structure HmConfig where
  distance_scaling : Bool
  smoothing : ℚ
  output_smoothing : ℚ
  acceleration : ℚ
  sensitivity : ℚ

/-- The persisted state of the four stateful filters wired up in `main`
(headmouse.py lines 197-208): `velocity_gen`, `input_smoother_gen`,
`sub_pix_gen` and `output_smoother`. -/
structure PipeState where
  prev : Option (ℚ × ℚ)
  emaIn : Option (ℚ × ℚ)
  sub : ℚ × ℚ
  emaOut : Option (ℚ × ℚ)

/-- All-fresh filter state at process start. -/
def initPipeState : PipeState := ⟨none, none, (0, 0), none⟩

/-- The body of the main loop for one acquired frame, translated
line by line from headmouse.py lines 228-249: relative delta (230),
outlier filter (231), optional distance scaling (233-235), input EMA
(238), acceleration (239), sub-pixel truncation (242), x-axis mirror
(245), output EMA (247), emission (249).  Returns the new filter state
and the list of pairs sent to the output driver during the frame. -/
def frameStep (cfg : HmConfig) (st : PipeState) (x y distance : ℚ) :
    PipeState × List (ℚ × ℚ) :=
  let r1 := relative_movement st.prev (x, y)
  let v2 := killOutliers r1.1 OUTLIER_VELOCITY_THRESHOLD
  let v3 := if cfg.distance_scaling then (v2.1 * distance, v2.2 * distance) else v2
  let r4 := emaStep cfg.smoothing st.emaIn v3
  let v5 := accelerate_exp ACCELERATION_EXPONENT cfg.acceleration cfg.sensitivity r4.1
  let r6 := sub_pix_trunc st.sub v5
  let d7 : ℤ × ℤ := (-r6.1.1, r6.1.2)
  let r8 := emaStep cfg.output_smoothing st.emaOut ((d7.1 : ℚ), (d7.2 : ℚ))
  (⟨r1.2, r4.2, r6.2, r8.2⟩, [r8.1])

/-- Axis mirror: negate the x component (headmouse.py line 245). -/
def mirrorAxis (d : ℤ × ℤ) : ℤ × ℤ := (-d.1, d.2)

/-- The per-frame transform written stage by stage in the order the
specification lists (§4.7): absolute→relative delta, outlier filter,
optional distance scaler, input EMA smoother, acceleration curve,
sub-pixel accumulator, axis mirror, output EMA smoother, and exactly one
emission. -/
def specOrderStep (cfg : HmConfig) (st : PipeState) (x y distance : ℚ) :
    PipeState × List (ℚ × ℚ) :=
  let s1 := relative_movement st.prev (x, y)
  let s2 := killOutliers s1.1 OUTLIER_VELOCITY_THRESHOLD
  let s3 := if cfg.distance_scaling then (s2.1 * distance, s2.2 * distance) else s2
  let s4 := emaStep cfg.smoothing st.emaIn s3
  let s5 := accelerate_exp ACCELERATION_EXPONENT cfg.acceleration cfg.sensitivity s4.1
  let s6 := sub_pix_trunc st.sub s5
  let s7 := mirrorAxis s6.1
  let s8 := emaStep cfg.output_smoothing st.emaOut ((s7.1 : ℚ), (s7.2 : ℚ))
  (⟨s1.2, s4.2, s6.2, s8.2⟩, [s8.1])

/-! ### Acquisition state machine -/

/-- Modelled from the spec: the fast/slow search modes of the `camera`
module's acquisition state machine (§4.6), which is not under `src/`. -/
inductive SearchMode
  | FAST_SEARCH
  | SLOW_SEARCH
deriving DecidableEq

/-- Modelled from the spec: the acquisition state (§3), `{mode,
last_acquired_time}`. -/
structure AcqState where
  mode : SearchMode
  lastAcquiredTime : ℚ
deriving DecidableEq

/-- Modelled from the spec: one frame of the acquisition state machine
(§4.6).  On acquisition: mode becomes `FAST_SEARCH` and
`last_acquired_time` is set to `now`.  On failure: in `FAST_SEARCH`,
stay if `now - last_acquired_time < realtime_search_timeout`, else move
to `SLOW_SEARCH`; `SLOW_SEARCH` persists until the next acquisition. -/
def acqStep (timeout : ℚ) (s : AcqState) (now : ℚ) (acquired : Bool) : AcqState :=
  if acquired then ⟨.FAST_SEARCH, now⟩
  else
    match s.mode with
    | .FAST_SEARCH =>
        if now - s.lastAcquiredTime < timeout then s else ⟨.SLOW_SEARCH, s.lastAcquiredTime⟩
    | .SLOW_SEARCH => s

/-- Fold the state machine over a list of frame times on which the
tracker fails to find a target. -/
def runFailures (timeout : ℚ) (s : AcqState) : List ℚ → AcqState
  | [] => s
  | t :: ts => runFailures timeout (acqStep timeout s t false) ts

/-! ### pymouse output sink (headmouse.py, `pymouse_output`, lines 76-97) -/

/-- The target position handed to `mouse.move`, translated from
headmouse.py lines 93-94: each axis of the current position plus the
delta, clamped into `[0, max]`. -/
def pymouseTarget (xmax ymax x y dx dy : ℚ) : ℚ × ℚ :=
  (max 0 (min xmax (x + dx)), max 0 (min ymax (y + dy)))

/-- The condition of the post-clamp debug-logging branch, translated
from headmouse.py line 95. -/
def pymouseOutOfRangeLog (xmax ymax : ℚ) (p : ℚ × ℚ) : Bool :=
  decide (p.1 < 0) || decide (xmax < p.1) || decide (p.2 < 0) || decide (ymax < p.2)

/-! ### Log-level selection (headmouse.py, `main`, line 180) -/

/-- Python list indexing: non-negative indices from the front, negative
indices from the back, out of range on either side raises `IndexError`
(modelled as `none`). -/
def pyIndex {α : Type} (l : List α) (i : ℤ) : Option α :=
  if 0 ≤ i then l.get? i.toNat
  else if 0 ≤ (l.length : ℤ) + i then l.get? ((l.length : ℤ) + i).toNat
  else none

/-- `[logging.ERROR, logging.WARN, logging.INFO, logging.DEBUG]`
(headmouse.py line 180), as the numeric values of the Python logging
module: 40, 30, 20, 10. -/
def logLevels : List ℕ := [40, 30, 20, 10]

/-- `log_level = [...][config['verbosity']]` (headmouse.py line 180). -/
def selectLogLevel (verbosity : ℤ) : Option ℕ := pyIndex logLevels verbosity

/-! ### Configuration (headmouse.py, `get_config`, lines 99-173)

`get_config` builds a dict of built-in defaults, overrides it with the
(string-valued) pairs read from the config files, and then coerces the
typed fields: the camera-resolution split (line 140-141), `int()` on the
int fields (144-150), `float()` on the float fields (153-161), and the
string-whitelist / `bool()` coercion on the bool fields (164-171).
Python values are embedded as `PyVal`; a failed `int()`/`float()`
conversion raises `ValueError`, modelled by `getConfig` returning
`none`. -/

/-- A Python value as stored in the config dict. -/
inductive PyVal
  | str (v : String)
  | int (v : ℤ)
  | float (v : ℚ)
  | bool (v : Bool)
  | intList (v : List ℤ)
deriving DecidableEq

/-- The configuration option names (headmouse.py lines 100-122). -/
inductive CField
  | output
  | arduino_baud
  | arduino_port
  | input
  | input_tracker
  | input_visualize
  | input_realtime_search_timeout
  | input_slow_search_delay
  | input_camera_name
  | input_camera_resolution
  | input_camera_fps
  | acceleration
  | sensitivity
  | smoothing
  | output_smoothing
  | distance_scaling
  | verbosity
deriving DecidableEq, Fintype

/-- The built-in defaults (headmouse.py lines 100-122). -/
def defaults : CField → PyVal
  | .output => .str "arduino_output"
  | .arduino_baud => .int 115200
  | .arduino_port => .str "/dev/tty.usbmodemfa13131"
  | .input => .str "camera"
  | .input_tracker => .str "dot_tracker"
  | .input_visualize => .bool true
  | .input_realtime_search_timeout => .float 2
  | .input_slow_search_delay => .float 2
  | .input_camera_name => .int 0
  | .input_camera_resolution => .intList [640, 480]
  | .input_camera_fps => .int 30
  | .acceleration => .float (23/10)
  | .sensitivity => .float 2
  | .smoothing => .float (9/10)
  | .output_smoothing => .float (9/10)
  | .distance_scaling => .bool true
  | .verbosity => .int 3

/-- Parse a non-empty all-digit character list as a natural number. -/
def parseDigits (cs : List Char) : Option ℕ :=
  if cs ≠ [] ∧ cs.all Char.isDigit then
    some (cs.foldl (fun n c => 10 * n + (c.toNat - 48)) 0)
  else none

/-- Python `int(s)` on a string: optional sign followed by decimal
digits; anything else raises `ValueError` (modelled as `none`).
Tolerated surrounding whitespace is not modelled — no claim depends on
it. -/
def parseIntPy (s : String) : Option ℤ :=
  match s.toList with
  | '-' :: rest => (parseDigits rest).map (fun n => -(n : ℤ))
  | '+' :: rest => (parseDigits rest).map (fun n => (n : ℤ))
  | cs => (parseDigits cs).map (fun n => (n : ℤ))

/-- Python `float(s)` on a plain decimal string: optional sign, digits
with an optional decimal point (`"2"`, `"2.5"`, `"2."`, `".5"`); other
strings raise `ValueError` (modelled as `none`; tolerated whitespace,
scientific notation and `inf`/`nan` are outside what this development
needs and are modelled as invalid). -/
def parseFloatPy (s : String) : Option ℚ :=
  let core : List Char → Option ℚ := fun cs =>
    let intPart := cs.takeWhile Char.isDigit
    let rest := cs.dropWhile Char.isDigit
    match rest with
    | [] => (parseDigits intPart).map (fun n => (n : ℚ))
    | '.' :: fracPart =>
        if (intPart ≠ [] ∨ fracPart ≠ []) ∧ fracPart.all Char.isDigit then
          some ((intPart.foldl (fun n c => 10 * n + (c.toNat - 48)) 0 : ℚ) +
            (fracPart.foldl (fun n c => 10 * n + (c.toNat - 48)) 0 : ℚ) /
              (10 : ℚ) ^ fracPart.length)
        else none
    | _ => none
  match s.toList with
  | '-' :: rest => (core rest).map (fun q => -q)
  | '+' :: rest => core rest
  | cs => core cs

/-- ASCII lower-casing of one character, the behaviour of Python
`str.lower()` on the ASCII strings a config file holds. -/
def charLower (c : Char) : Char :=
  if 'A' ≤ c ∧ c ≤ 'Z' then Char.ofNat (c.toNat + 32) else c

/-- Python `s.lower()` (ASCII). -/
def lowerPy (s : String) : String := String.mk (s.toList.map charLower)

/-- The string whitelist of `get_config`'s bool coercion (headmouse.py
line 169): `value.lower() in ("true", "1", "t", "#t", "yes")`. -/
def parseBoolPy (s : String) : Bool :=
  lowerPy s = "true" ∨ lowerPy s = "1" ∨ lowerPy s = "t" ∨
    lowerPy s = "#t" ∨ lowerPy s = "yes"

/-- Python `bool(v)` truthiness on non-string values (headmouse.py
line 171). -/
def pyTruthy : PyVal → Bool
  | .str s => s ≠ ""
  | .int n => n ≠ 0
  | .float q => q ≠ 0
  | .bool b => b
  | .intList l => l ≠ []

/-- `re.split(r'x|, *', s)` (headmouse.py line 141): break the string at
every `'x'` and at every `','` followed by any run of spaces. -/
def splitRes : List Char → List Char → List (List Char)
  | [], acc => [acc.reverse]
  | 'x' :: rest, acc => acc.reverse :: splitRes rest []
  | ',' :: rest, acc => acc.reverse :: splitRes (rest.dropWhile (· = ' ')) []
  | c :: rest, acc => splitRes rest (c :: acc)
termination_by cs _ => cs.length
decreasing_by
  all_goals simp_wf
  all_goals
    first
    | omega
    | · have := (List.IsSuffix.sublist
          (List.dropWhile_suffix (l := rest) (fun c => decide (c = ' ')))).length_le
        omega

/-- The per-field type coercion of `get_config` (headmouse.py
lines 136-171) applied to one merged value.  `none` models a raised
`ValueError` (or `TypeError`). -/
def coerceField (f : CField) (v : PyVal) : Option PyVal :=
  match f with
  | .input_camera_resolution =>
      match v with
      | .str s =>
          ((splitRes s.toList []).mapM fun cs =>
            parseIntPy (String.mk cs)).map .intList
      | w => some w
  | .input_camera_name | .input_camera_fps | .arduino_baud | .verbosity =>
      match v with
      | .str s => (parseIntPy s).map .int
      | .int n => some (.int n)
      | .float q => some (.int (truncQ q))
      | .bool b => some (.int (if b then 1 else 0))
      | .intList _ => none
  | .acceleration | .sensitivity | .smoothing | .output_smoothing
  | .input_realtime_search_timeout | .input_slow_search_delay =>
      match v with
      | .str s => (parseFloatPy s).map .float
      | .int n => some (.float n)
      | .float q => some (.float q)
      | .bool b => some (.float (if b then 1 else 0))
      | .intList _ => none
  | .distance_scaling | .input_visualize =>
      match v with
      | .str s => some (.bool (parseBoolPy s))
      | w => some (.bool (pyTruthy w))
  | .output | .arduino_port | .input | .input_tracker => some v

/-- The dict after the file override (headmouse.py lines 124-132): an
option present in the files (always a string) replaces the default. -/
def mergedRaw (fs : CField → Option String) (f : CField) : PyVal :=
  match fs f with
  | some s => .str s
  | none => defaults f

/-- `get_config` (headmouse.py lines 99-173) over the values the config
files provide: merge the file values over the defaults, then coerce
every typed field; a failed coercion raises (modelled as `none`). -/
def getConfig (fs : CField → Option String) : Option (CField → PyVal) :=
  if h : ∀ f, (coerceField f (mergedRaw fs f)).isSome then
    some (fun f => (coerceField f (mergedRaw fs f)).get (h f))
  else none

/-! ## Theorems -/

/-- C1: for every frame processed with an acquired sample, the loop body
of `main` (headmouse.py lines 228-249) applies the transforms in exactly
the order the specification lists — absolute-to-relative delta, outlier
filter, optional distance scaling, input EMA, acceleration curve,
sub-pixel truncation, x-axis mirror, output EMA — and performs exactly
one emission to the output sink. -/
theorem C1_pipeline_order (cfg : HmConfig) (st : PipeState) (x y distance : ℚ) :
    frameStep cfg st x y distance = specOrderStep cfg st x y distance ∧
    (frameStep cfg st x y distance).2.length = 1 :=
  ⟨rfl, rfl⟩

/-- C5: the outlier filter with the fixed threshold
`OUTLIER_VELOCITY_THRESHOLD = 20` zeroes a velocity whenever either
component strictly exceeds 20 in magnitude and passes it through
unchanged otherwise; in particular `(25, 0) ↦ (0, 0)` while
`(19.9, -19.9)` and `(0, 20)` pass unchanged (exclusive boundary). -/
theorem C5_outlier_filter (v : ℚ × ℚ) :
    OUTLIER_VELOCITY_THRESHOLD = 20 ∧
    killOutliers (25, 0) OUTLIER_VELOCITY_THRESHOLD = (0, 0) ∧
    killOutliers (199/10, -(199/10)) OUTLIER_VELOCITY_THRESHOLD =
      (199/10, -(199/10)) ∧
    killOutliers (0, 20) OUTLIER_VELOCITY_THRESHOLD = (0, 20) ∧
    (|v.1| ≤ OUTLIER_VELOCITY_THRESHOLD → |v.2| ≤ OUTLIER_VELOCITY_THRESHOLD →
      killOutliers v OUTLIER_VELOCITY_THRESHOLD = v) ∧
    (OUTLIER_VELOCITY_THRESHOLD < |v.1| ∨ OUTLIER_VELOCITY_THRESHOLD < |v.2| →
      killOutliers v OUTLIER_VELOCITY_THRESHOLD = (0, 0)) := by
  refine ⟨rfl, ?_, ?_, ?_, ?_, ?_⟩
  · rw [killOutliers, if_pos (by norm_num [OUTLIER_VELOCITY_THRESHOLD])]
  · rw [killOutliers, if_neg (by norm_num [OUTLIER_VELOCITY_THRESHOLD, abs_le])]
  · rw [killOutliers, if_neg (by norm_num [OUTLIER_VELOCITY_THRESHOLD, abs_le])]
  · intro h1 h2
    rw [killOutliers, if_neg]
    push_neg
    exact ⟨h1, h2⟩
  · intro h
    rw [killOutliers, if_pos h]

/-- Witness for C5 at the concrete in-range velocity `(3, 4)`. -/
theorem C5_outlier_filter_witness :
    |((3 : ℚ), (4 : ℚ)).1| ≤ OUTLIER_VELOCITY_THRESHOLD ∧
    |((3 : ℚ), (4 : ℚ)).2| ≤ OUTLIER_VELOCITY_THRESHOLD ∧
    killOutliers ((3 : ℚ), (4 : ℚ)) OUTLIER_VELOCITY_THRESHOLD = (3, 4) :=
  ⟨by norm_num [OUTLIER_VELOCITY_THRESHOLD],
   by norm_num [OUTLIER_VELOCITY_THRESHOLD],
   (C5_outlier_filter (3, 4)).2.2.2.2.1
     (by norm_num [OUTLIER_VELOCITY_THRESHOLD])
     (by norm_num [OUTLIER_VELOCITY_THRESHOLD])⟩

/-- C10: `main` picks the log level by Python-indexing the four-element
list `[ERROR, WARN, INFO, DEBUG]` with the verbosity value
(headmouse.py line 180): verbosity 0..3 select ERROR..DEBUG, and every
verbosity above 3 or below -4 raises `IndexError` (modelled as `none`)
before the main loop runs. -/
theorem C10_log_level_indexing :
    selectLogLevel 0 = some 40 ∧ selectLogLevel 1 = some 30 ∧
    selectLogLevel 2 = some 20 ∧ selectLogLevel 3 = some 10 ∧
    ∀ v : ℤ, 3 < v ∨ v < -4 → selectLogLevel v = none := by
  refine ⟨rfl, rfl, rfl, rfl, ?_⟩
  intro v h
  rcases h with h | h
  · have h0 : (0 : ℤ) ≤ v := by omega
    rw [selectLogLevel, pyIndex, if_pos h0]
    refine List.get?_eq_none.mpr ?_
    simp only [logLevels, List.length_cons, List.length_nil]
    omega
  · have h0 : ¬ (0 : ℤ) ≤ v := by omega
    have h1 : ¬ (0 : ℤ) ≤ (logLevels.length : ℤ) + v := by
      simp only [logLevels, List.length_cons, List.length_nil]
      omega
    rw [selectLogLevel, pyIndex, if_neg h0, if_neg h1]

/-- Witness for C10 at the out-of-range verbosity 4. -/
theorem C10_log_level_indexing_witness :
    ((3 : ℤ) < 4 ∨ (4 : ℤ) < -4) ∧ selectLogLevel 4 = none :=
  ⟨Or.inl (by norm_num), C10_log_level_indexing.2.2.2.2 4 (Or.inl (by norm_num))⟩

/-- C8: the position handed to the OS move call by `pymouse_output`
(headmouse.py lines 93-97) is the current position plus the delta,
clamped componentwise into `[0, x_max] × [0, y_max]`; hence, for
non-negative screen bounds, the out-of-range logging branch after the
clamp never fires. -/
theorem C8_pymouse_clamp (xmax ymax x y dx dy : ℚ)
    (hx : 0 ≤ xmax) (hy : 0 ≤ ymax) :
    pymouseTarget xmax ymax x y dx dy =
      (max 0 (min xmax (x + dx)), max 0 (min ymax (y + dy))) ∧
    0 ≤ (pymouseTarget xmax ymax x y dx dy).1 ∧
    (pymouseTarget xmax ymax x y dx dy).1 ≤ xmax ∧
    0 ≤ (pymouseTarget xmax ymax x y dx dy).2 ∧
    (pymouseTarget xmax ymax x y dx dy).2 ≤ ymax ∧
    pymouseOutOfRangeLog xmax ymax (pymouseTarget xmax ymax x y dx dy) = false := by
  have a1 : 0 ≤ (pymouseTarget xmax ymax x y dx dy).1 := le_max_left _ _
  have a2 : (pymouseTarget xmax ymax x y dx dy).1 ≤ xmax :=
    max_le hx (min_le_left _ _)
  have a3 : 0 ≤ (pymouseTarget xmax ymax x y dx dy).2 := le_max_left _ _
  have a4 : (pymouseTarget xmax ymax x y dx dy).2 ≤ ymax :=
    max_le hy (min_le_left _ _)
  refine ⟨rfl, a1, a2, a3, a4, ?_⟩
  rw [pymouseOutOfRangeLog, decide_eq_false (not_lt.mpr a1),
    decide_eq_false (not_lt.mpr a2), decide_eq_false (not_lt.mpr a3),
    decide_eq_false (not_lt.mpr a4)]
  rfl

/-- Witness for C8 on a 100x100 screen, position (5, 5), delta (3, 3). -/
theorem C8_pymouse_clamp_witness :
    (0 : ℚ) ≤ 100 ∧
    pymouseOutOfRangeLog 100 100 (pymouseTarget 100 100 5 5 3 3) = false :=
  ⟨by norm_num,
   (C8_pymouse_clamp 100 100 5 5 3 3 (by norm_num) (by norm_num)).2.2.2.2.2⟩

/-- The residue of truncation toward zero always has magnitude below 1. -/
lemma truncQ_sub_abs_lt_one (q : ℚ) : |q - (truncQ q : ℚ)| < 1 := by
  rw [truncQ]
  split_ifs with h
  · rw [abs_lt]
    constructor
    · have := Int.floor_le q
      linarith
    · have := Int.lt_floor_add_one q
      linarith
  · rw [abs_lt]
    constructor
    · have := Int.ceil_lt_add_one q
      linarith
    · have := Int.le_ceil q
      linarith

/-- Conservation: outputs plus final remainder equal starting remainder
plus inputs. -/
lemma runSubPix_sum (r : ℚ) (l : List ℚ) :
    ((runSubPix r l).1.sum : ℚ) + (runSubPix r l).2 = r + l.sum := by
  induction l generalizing r with
  | nil => simp [runSubPix]
  | cons x xs ih =>
      have h := ih (subPixStep r x).2
      have hs : ((subPixStep r x).1 : ℚ) + (subPixStep r x).2 = x + r := by
        simp [subPixStep]
      simp only [runSubPix, List.sum_cons]
      rw [Int.cast_add]
      linarith [h, hs]

/-- The persisted remainder stays below 1 in magnitude. -/
lemma runSubPix_rem_lt_one (r : ℚ) (l : List ℚ) (h : |r| < 1) :
    |(runSubPix r l).2| < 1 := by
  induction l generalizing r with
  | nil => simpa [runSubPix] using h
  | cons x xs ih =>
      simp only [runSubPix]
      exact ih _ (by simpa [subPixStep] using truncQ_sub_abs_lt_one (x + r))

/-- Evaluation of the single-axis accumulator on ten inputs of 0.3. -/
lemma runSubPix_example :
    runSubPix 0 (List.replicate 10 (3/10)) = ([0, 0, 0, 1, 0, 0, 1, 0, 0, 1], 0) := by
  norm_num [List.replicate, runSubPix, subPixStep, truncQ]

/-- Evaluation of the two-axis accumulator on ten inputs of (0.3, 0.3). -/
lemma runSubPix2_example :
    runSubPix2 (0, 0) (List.replicate 10 (3/10, 3/10)) =
      ([(0, 0), (0, 0), (0, 0), (1, 1), (0, 0), (0, 0), (1, 1), (0, 0), (0, 0),
        (1, 1)], (0, 0)) := by
  norm_num [List.replicate, runSubPix2, sub_pix_trunc, subPixStep, truncQ]

/-- C2: from zero remainder, the integer outputs of the sub-pixel
accumulator sum to the rational inputs minus the final remainder, whose
magnitude stays below 1 per axis; feeding `(0.3, 0.3)` ten times sums to
`(3, 3)` with every per-call output in `{0, 1}` per axis. -/
theorem C2_subpixel_no_loss (l : List ℚ) :
    ((runSubPix 0 l).1.sum : ℚ) = l.sum - (runSubPix 0 l).2 ∧
    |(runSubPix 0 l).2| < 1 ∧
    ((runSubPix2 (0, 0) (List.replicate 10 (3/10, 3/10))).1.map Prod.fst).sum = 3 ∧
    ((runSubPix2 (0, 0) (List.replicate 10 (3/10, 3/10))).1.map Prod.snd).sum = 3 ∧
    ((runSubPix2 (0, 0) (List.replicate 10 (3/10, 3/10))).1.all fun z =>
      decide (z.1 = 0 ∨ z.1 = 1) && decide (z.2 = 0 ∨ z.2 = 1)) = true := by
  refine ⟨?_, runSubPix_rem_lt_one 0 l (by norm_num), ?_, ?_, ?_⟩
  · have := runSubPix_sum 0 l
    linarith
  all_goals rw [runSubPix2_example]
  all_goals decide

/-- One EMA step on an input equal to the persisted average returns the
average unchanged, for every coefficient. -/
lemma emaStep_const (a : ℚ) (v : ℚ × ℚ) : emaStep a (some v) v = (v, some v) := by
  simp only [emaStep]
  have h1 : a * v.1 + (1 - a) * v.1 = v.1 := by ring
  have h2 : a * v.2 + (1 - a) * v.2 = v.2 := by ring
  rw [h1, h2]

/-- The EMA initialized at `v` reproduces a constant stream of `v`. -/
lemma emaRun_const (a : ℚ) (v : ℚ × ℚ) (k : ℕ) :
    emaRun a (some v) (List.replicate k v) = (List.replicate k v, some v) := by
  induction k with
  | zero => simp [emaRun]
  | succ n ih => simp [List.replicate_succ, emaRun, emaStep_const, ih]

/-- C3 (amended): the EMA smoother returns its input on the first call
and `α·avg + (1−α)·input` afterwards; consequently, for constant input
`v` the output equals `v` on every call — hence trivially converges
monotonically to `v` — for every coefficient `α`, not only `α = 0`. -/
theorem C3_ema_constant_input (a : ℚ) (v : ℚ × ℚ) (n : ℕ) :
    emaStep a none v = (v, some v) ∧
    (∀ avg w : ℚ × ℚ, emaStep a (some avg) w =
      ((a * avg.1 + (1 - a) * w.1, a * avg.2 + (1 - a) * w.2),
        some (a * avg.1 + (1 - a) * w.1, a * avg.2 + (1 - a) * w.2))) ∧
    (emaRun a none (List.replicate n v)).1 = List.replicate n v := by
  refine ⟨rfl, fun avg w => rfl, ?_⟩
  cases n with
  | zero => simp [emaRun]
  | succ m => simp [List.replicate_succ, emaRun, emaStep, emaRun_const]

/-- Counterexample to C3 as stated: with `α = 1/2 ≠ 0` the output still
equals the constant input on every call, so "output equals v on every
call exactly when α = 0" fails in the only-if direction. -/
theorem C3_ema_alpha_counterexample :
    (emaRun (1/2) none [((1 : ℚ), (0 : ℚ)), (1, 0), (1, 0)]).1 =
      [(1, 0), (1, 0), (1, 0)] ∧ ((1 : ℚ)/2) ≠ 0 := by
  constructor
  · norm_num [emaRun, emaStep]
  · norm_num

/-- Folding any number of failure frames never touches
`last_acquired_time`, and the mode stays `FAST_SEARCH` exactly when it
started there and no failure frame exceeded the timeout. -/
lemma runFailures_spec (timeout t0 : ℚ) (ts : List ℚ) (m : SearchMode) :
    (runFailures timeout ⟨m, t0⟩ ts).lastAcquiredTime = t0 ∧
    ((runFailures timeout ⟨m, t0⟩ ts).mode = SearchMode.FAST_SEARCH ↔
      (m = SearchMode.FAST_SEARCH ∧ ∀ u ∈ ts, u - t0 < timeout)) := by
  induction ts generalizing m with
  | nil =>
      refine ⟨rfl, ?_⟩
      simp [runFailures]
  | cons u rest ih =>
      simp only [runFailures]
      cases m with
      | FAST_SEARCH =>
          by_cases hu : u - t0 < timeout
          · have hstep : acqStep timeout ⟨SearchMode.FAST_SEARCH, t0⟩ u false =
                ⟨SearchMode.FAST_SEARCH, t0⟩ := by
              simp [acqStep, hu]
            rw [hstep]
            refine ⟨(ih _).1, ?_⟩
            rw [(ih _).2]
            simp [hu]
          · have hstep : acqStep timeout ⟨SearchMode.FAST_SEARCH, t0⟩ u false =
                ⟨SearchMode.SLOW_SEARCH, t0⟩ := by
              simp [acqStep, hu]
            rw [hstep]
            refine ⟨(ih _).1, ?_⟩
            rw [(ih _).2]
            simp [hu]
      | SLOW_SEARCH =>
          have hstep : acqStep timeout ⟨SearchMode.SLOW_SEARCH, t0⟩ u false =
              ⟨SearchMode.SLOW_SEARCH, t0⟩ := by
            simp [acqStep]
          rw [hstep]
          refine ⟨(ih _).1, ?_⟩
          rw [(ih _).2]
          simp

/-- C6: after an acquisition at `t0`, a run of failure frames ending at a
latest frame time `t` leaves `last_acquired_time` at `t0` and the mode is
`FAST_SEARCH` exactly while `t - t0 < realtime_search_timeout`, becoming
`SLOW_SEARCH` afterwards; and each successful acquisition resets the
machine to `FAST_SEARCH` immediately, from any state. -/
theorem C6_acquisition_state_machine (timeout t0 t : ℚ) (s : AcqState)
    (ts : List ℚ) (hle : ∀ u ∈ ts, u ≤ t) :
    (∀ s' u, acqStep timeout s' u true = ⟨SearchMode.FAST_SEARCH, u⟩) ∧
    (runFailures timeout (acqStep timeout s t0 true) (ts ++ [t])).lastAcquiredTime = t0 ∧
    (runFailures timeout (acqStep timeout s t0 true) (ts ++ [t])).mode =
      if t - t0 < timeout then SearchMode.FAST_SEARCH else SearchMode.SLOW_SEARCH := by
  have hacq : acqStep timeout s t0 true = ⟨SearchMode.FAST_SEARCH, t0⟩ := by
    simp [acqStep]
  rw [hacq]
  refine ⟨fun s' u => by simp [acqStep], (runFailures_spec timeout t0 _ _).1, ?_⟩
  have h := (runFailures_spec timeout t0 (ts ++ [t]) SearchMode.FAST_SEARCH).2
  by_cases ht : t - t0 < timeout
  · rw [if_pos ht]
    refine h.mpr ⟨rfl, ?_⟩
    intro u hu
    rcases List.mem_append.mp hu with h1 | h2
    · have := hle u h1
      linarith
    · have hut : u = t := by simpa using h2
      rw [hut]
      exact ht
  · rw [if_neg ht]
    cases hmode : (runFailures timeout ⟨SearchMode.FAST_SEARCH, t0⟩ (ts ++ [t])).mode with
    | FAST_SEARCH =>
        exact absurd ((h.mp hmode).2 t (by simp)) ht
    | SLOW_SEARCH => rfl

/-- Witness for C6: timeout 2, acquisition at time 0, failures at times
0.5, 1 and 1.5; the machine is still in fast search at time 1.5. -/
theorem C6_acquisition_witness :
    (∀ u ∈ [(1 : ℚ)/2, 1], u ≤ (3 : ℚ)/2) ∧
    (runFailures 2 (acqStep 2 ⟨SearchMode.SLOW_SEARCH, 5⟩ 0 true)
      ([(1 : ℚ)/2, 1] ++ [(3 : ℚ)/2])).mode = SearchMode.FAST_SEARCH := by
  have hle : ∀ u ∈ [(1 : ℚ)/2, 1], u ≤ (3 : ℚ)/2 := by
    intro u hu
    rcases List.mem_cons.mp hu with h | h
    · rw [h]; norm_num
    · rcases List.mem_cons.mp h with h2 | h2
      · rw [h2]; norm_num
      · simp at h2
  refine ⟨hle, ?_⟩
  have h := (C6_acquisition_state_machine 2 0 ((3 : ℚ)/2) ⟨SearchMode.SLOW_SEARCH, 5⟩
    [(1 : ℚ)/2, 1] hle).2.2
  rw [if_pos (by norm_num)] at h
  exact h

/-- With exponent 2 the signed power-law gain is the odd cubic
`v·(s + a·v²)`. -/
lemma accAxis_eq (a s v : ℚ) :
    accAxis ACCELERATION_EXPONENT a s v = v * (s + a * v ^ 2) := by
  rw [accAxis, ACCELERATION_EXPONENT, sgnQ]
  rcases lt_trichotomy v 0 with h | h | h
  · rw [if_neg (by linarith), if_pos h, abs_of_neg h]
    ring
  · rw [h]
    simp
  · rw [if_pos h, abs_of_pos h]
    ring

/-- C4: with exponent `p = ACCELERATION_EXPONENT = 2`, gain `a > 0` and
sensitivity floor `s ≥ 0`, the per-axis acceleration curve is
`sign(v)·(s + a·|v|^p)·|v|`; it is continuous, passes through the origin
(no deadzone), its output/input ratio tends to `s` at 0, and its output
magnitude outgrows every linear function of `|v|`. -/
theorem C4_acceleration_curve (a s : ℚ) (ha : 0 < a) (hs : 0 ≤ s) :
    (∀ v : ℚ, accAxis ACCELERATION_EXPONENT a s v =
      sgnQ v * (s + a * |v| ^ ACCELERATION_EXPONENT) * |v|) ∧
    Continuous (accAxis ACCELERATION_EXPONENT a s) ∧
    accAxis ACCELERATION_EXPONENT a s 0 = 0 ∧
    Filter.Tendsto (fun v : ℚ => accAxis ACCELERATION_EXPONENT a s v / v)
      (nhdsWithin 0 {0}ᶜ) (nhds s) ∧
    (∀ c : ℚ, ∃ M : ℚ, ∀ v : ℚ, M ≤ |v| →
      c * |v| < |accAxis ACCELERATION_EXPONENT a s v|) := by
  have key : ∀ v : ℚ, accAxis ACCELERATION_EXPONENT a s v = v * (s + a * v ^ 2) :=
    accAxis_eq a s
  refine ⟨fun v => rfl, ?_, ?_, ?_, ?_⟩
  · rw [funext key]
    fun_prop
  · rw [key]
    ring
  · have hpoly : Filter.Tendsto (fun v : ℚ => s + a * v ^ 2)
        (nhdsWithin 0 {(0 : ℚ)}ᶜ) (nhds s) := by
      have hc : Continuous fun v : ℚ => s + a * v ^ 2 := by fun_prop
      have h0 : Filter.Tendsto (fun v : ℚ => s + a * v ^ 2) (nhds 0) (nhds s) := by
        simpa using hc.tendsto 0
      exact h0.mono_left nhdsWithin_le_nhds
    refine hpoly.congr' ?_
    filter_upwards [self_mem_nhdsWithin] with v hv
    have hv0 : v ≠ 0 := hv
    rw [key v, mul_comm v, mul_div_assoc, div_self hv0, mul_one]
  · intro c
    refine ⟨(|c| + 1) * (1/a + 1), fun v hv => ?_⟩
    have hinv : (0 : ℚ) < 1/a := by positivity
    have hc1 : (1 : ℚ) ≤ |c| + 1 := by
      have := abs_nonneg c
      linarith
    have hM1 : (1 : ℚ) ≤ (|c| + 1) * (1/a + 1) := by nlinarith
    have hv1 : (1 : ℚ) ≤ |v| := le_trans hM1 hv
    have hv0 : (0 : ℚ) < |v| := by linarith
    have hsq : (|c| + 1) * (1/a + 1) ≤ v ^ 2 := by
      have habs : |v| ^ 2 = v ^ 2 := sq_abs v
      nlinarith
    have hgain : c < s + a * v ^ 2 := by
      have haM : a * ((|c| + 1) * (1/a + 1)) = (|c| + 1) * (1 + a) := by
        field_simp
      have h2 : |c| + 1 ≤ a * v ^ 2 := by nlinarith
      have h3 : c ≤ |c| := le_abs_self c
      linarith
    have hpos : (0 : ℚ) ≤ s + a * v ^ 2 :=
      add_nonneg hs (mul_nonneg ha.le (sq_nonneg v))
    rw [key v, abs_mul, abs_of_nonneg hpos]
    nlinarith

/-- Witness for C4 at the concrete gain 1 and sensitivity 1. -/
theorem C4_acceleration_witness :
    (0 : ℚ) < 1 ∧ (0 : ℚ) ≤ 1 ∧ accAxis ACCELERATION_EXPONENT 1 1 0 = 0 :=
  ⟨by norm_num, by norm_num,
    (C4_acceleration_curve 1 1 (by norm_num) (by norm_num)).2.2.1⟩

/-- A concrete valid configuration exercising the pipeline: distance
scaling off, input smoothing 0, the default output smoothing 0.9,
acceleration gain 0, sensitivity 1. -/
def bugConfig : HmConfig := ⟨false, 0, 9/10, 0, 1⟩

/-- C7: refuted — the orchestrator places the output EMA smoother after
the integer sub-pixel truncation (headmouse.py line 247), so the pair
sent to the output sink is not integral in general: starting from fresh
state, tracking positions (0,0) then (3,0) emits `(-0.3, 0)` on the
second frame.  (`print_output`, headmouse.py line 74, formats with
`{:d}`, which rejects such a float.) -/
theorem C7_noninteger_emission :
    (frameStep bugConfig (frameStep bugConfig initPipeState 0 0 1).1 3 0 1).2 =
      [(-(3/10 : ℚ), 0)] ∧
    ¬ ∃ n : ℤ, ((n : ℚ)) = -(3/10 : ℚ) := by
  constructor
  · have h1 : frameStep bugConfig initPipeState 0 0 1 =
        (⟨some (0, 0), some (0, 0), (0, 0), some (0, 0)⟩, [((0 : ℚ), (0 : ℚ))]) := by
      norm_num [frameStep, bugConfig, initPipeState, relative_movement, killOutliers,
        OUTLIER_VELOCITY_THRESHOLD, emaStep, accelerate_exp, accAxis, sgnQ,
        ACCELERATION_EXPONENT, sub_pix_trunc, subPixStep, truncQ]
    rw [h1]
    norm_num [frameStep, bugConfig, relative_movement, killOutliers,
      OUTLIER_VELOCITY_THRESHOLD, emaStep, accelerate_exp, accAxis, sgnQ,
      ACCELERATION_EXPONENT, sub_pix_trunc, subPixStep, truncQ]
  · rintro ⟨n, hn⟩
    have h10 : ((10 * n : ℤ) : ℚ) = -3 := by
      push_cast
      linarith
    have hz : (10 * n : ℤ) = -3 := by exact_mod_cast h10
    omega

/-- Getting out of a known `some` yields its payload. -/
lemma option_get_eq {α : Type} {o : Option α} {a : α} (h : o.isSome)
    (he : o = some a) : o.get h = a := by
  subst he
  rfl

/-- Every built-in default passes its own field's coercion unchanged. -/
lemma coerceField_defaults (f : CField) :
    coerceField f (defaults f) = some (defaults f) := by
  cases f <;> rfl

/-- With no configuration files, `get_config` returns exactly the
built-in defaults. -/
lemma getConfig_empty : getConfig (fun _ => none) = some defaults := by
  have hall : ∀ f, (coerceField f (mergedRaw (fun _ => none) f)).isSome := by
    intro f
    rw [show mergedRaw (fun _ => none) f = defaults f from rfl, coerceField_defaults f]
    rfl
  rw [getConfig, dif_pos hall]
  congr 1
  funext f
  exact option_get_eq (hall f)
    (by rw [show mergedRaw (fun _ => none) f = defaults f from rfl,
      coerceField_defaults f])

/-- C9 (amended): an option the configuration files do not provide keeps
its built-in default in the configuration `get_config` returns; an
invalid provided value does not fall back to the default (see the
counterexample). -/
theorem C9_missing_value_defaults (fs : CField → Option String)
    (cfg : CField → PyVal) (f : CField)
    (hok : getConfig fs = some cfg) (hmiss : fs f = none) :
    cfg f = defaults f := by
  rw [getConfig] at hok
  split at hok
  · rename_i h
    have hfun := Option.some.inj hok
    have hmr : mergedRaw fs f = defaults f := by
      unfold mergedRaw
      rw [hmiss]
    have h1 : coerceField f (mergedRaw fs f) = some (defaults f) := by
      rw [hmr, coerceField_defaults]
    rw [← hfun]
    exact option_get_eq (h f) h1
  · exact absurd hok (by simp)

/-- Witness for C9 with no files present, read at the verbosity field. -/
theorem C9_missing_value_defaults_witness :
    getConfig (fun _ => none) = some defaults ∧
    (fun _ : CField => (none : Option String)) CField.verbosity = none ∧
    defaults CField.verbosity = defaults CField.verbosity :=
  ⟨getConfig_empty, rfl,
    C9_missing_value_defaults (fun _ => none) defaults CField.verbosity
      getConfig_empty rfl⟩

/-- Files that provide the invalid boolean string `"maybe"` for
`distance_scaling`. -/
def exBoolFiles : CField → Option String :=
  fun f => if f = CField.distance_scaling then some "maybe" else none

/-- Files that provide the unparsable integer string `"abc"` for
`verbosity`. -/
def exIntFiles : CField → Option String :=
  fun f => if f = CField.verbosity then some "abc" else none

/-- Counterexample to C9 as stated: an invalid value does not fall back
to the built-in default.  The invalid boolean `"maybe"` coerces to
`False` although the default is `True`, and the unparsable integer
`"abc"` for verbosity makes `get_config` raise `ValueError` instead of
returning any configuration. -/
theorem C9_invalid_value_counterexample :
    defaults CField.distance_scaling = PyVal.bool true ∧
    (getConfig exBoolFiles).map (fun c => c CField.distance_scaling) =
      some (PyVal.bool false) ∧
    getConfig exIntFiles = none := by
  refine ⟨rfl, ?_, ?_⟩
  · have hall : ∀ f, (coerceField f (mergedRaw exBoolFiles f)).isSome := by
      intro f
      cases f <;> rfl
    rw [getConfig, dif_pos hall, Option.map_some']
    exact congrArg some (option_get_eq _ rfl)
  · have hbad : ¬ ∀ f, (coerceField f (mergedRaw exIntFiles f)).isSome := by
      intro hall
      have h := hall CField.verbosity
      rw [show coerceField CField.verbosity (mergedRaw exIntFiles CField.verbosity) =
        none from rfl] at h
      simp at h
    rw [getConfig, dif_neg hbad]

end Headmouse
